import Mathlib

/-!
Verification development for the ptnet-mgr repository.

The definitions below are a shallow embedding of the Rust sources:
machine integers become `Nat` with explicit `% 2^w` where overflow matters,
raw-byte struct copies become explicit byte lists, fallible code returns
`Except`, and the stateful scanner becomes a step function on an explicit
state record.  Bit layouts of the bindgen-generated C types (`VSQ`, `TI`,
`ASDH`) that are not reproduced in the repository are fixed by the
repository's own unit tests (see the comments at each definition).
-/

namespace PtnetMgr

/-! ## Wire-level primitive types (src/sol-mgrd/src/ptnet/ptnet.rs and the
generated `ptnet_c` bindings) -/

/-- ASDH: 2 bytes `ca`, `cot_pn`.  Embeds `ptnet_c::ASDH`. -/
structure ASDH where
  ca : Nat
  cotPn : Nat
deriving DecidableEq, Repr

/-- Low 6 bits of the second ASDH byte are the cause of transmission
(spec section 4.1; only the COT field of the byte is read by the scanner). -/
def ASDH.cot (a : ASDH) : Nat := a.cotPn % 64

/-- Bit 7 of the second ASDH byte is the P/N flag. -/
def ASDH.pn (a : ASDH) : Bool := a.cotPn / 128 % 2 = 1

/-- `ASDH::with(ca, cot, pn)` from sol-mgrd/src/ptnet/ptnet.rs: sets `ca`,
the COT field and the P/N bit.  Pinned by the scanner tests: bytes
`[10, 5]` equal `ASDH::with(10, COT::REQ, false)`. -/
def ASDH.with (ca cot : Nat) (pn : Bool) : ASDH :=
  ⟨ca, cot + (if pn then 128 else 0)⟩

/-- TI: one raw byte.  Embeds `ptnet_c::TI` (a C union of the raw byte and
bitfields `typecode
/size`). -/
structure TI where
  raw : Nat
deriving DecidableEq, Repr

def TI.value (t : TI) : Nat := t.raw

/-- `TI::size()`: the top 3 bits of the TI byte give the information-element
width in bytes.  Pinned by the repository's tests: TI 25 has width 0,
TI 34 width 1, TI 131 width 4, TI 161 width 5 — in every case `raw / 32`. -/
def TI.size (t : TI) : Nat := t.raw / 32

/-- `TI::tc()`: the low 5 bits are the typecode. -/
def TI.tc (t : TI) : Nat := t.raw % 32

/-- VSQ: one raw byte.  Embeds `ptnet_c::VSQ`. -/
structure VSQ where
  raw : Nat
deriving DecidableEq, Repr

/-- `VSQ::n()`: the low 4 bits are the information-element count.  Pinned by
the tests: byte `0x15` is `VSQ::with(5, true)` (N = 5, SQ set) and byte `3`
is `VSQ::with(3, false)`. -/
def VSQ.n (v : VSQ) : Nat := v.raw % 16

/-- `VSQ::sq()`: bit 4 is the sequence flag (see `VSQ.n`). -/
def VSQ.sq (v : VSQ) : Bool := v.raw / 16 % 2 = 1

/-- `VSQ::with(n, sq)`. -/
def VSQ.with (n : Nat) (sq : Bool) : VSQ :=
  ⟨n % 16 + (if sq then 16 else 0)⟩

/-- DUI: TI byte followed by VSQ byte.  Embeds `ptnet_c::DUI`. -/
structure DUI where
  ti : TI
  vsq : VSQ
deriving DecidableEq, Repr

/-- `DUI::with_direct(tc, n, sq)`. -/
def DUI.with_direct (tc n : Nat) (sq : Bool) : DUI :=
  ⟨⟨tc⟩, VSQ.with n sq⟩

/-- COT_REQ, pinned by the scanner test (ASDH bytes `[10, 5]` built with
`COT::REQ`). -/
def COT_REQ : Nat := 5

/-- COT_SPONT, pinned by the scanner test (ASDH bytes `[0, 3]` built with
`COT::SPONT`). -/
def COT_SPONT : Nat := 3

/-- Modelled from the spec: `COT_U_TI` comes from the generated C header,
which is not part of the repository's sources; the spec only says these
causes carry no information elements.  The IEC-60870-5 convention (44) is
used; no claim depends on the exact value, only on `COT_REQ` and
`COT_SPONT` (values pinned by the tests) lying outside this set. -/
def COT_U_TI : Nat := 44

/-- Modelled from the spec: see `COT_U_TI`. -/
def COT_U_COT : Nat := 45

/-- Modelled from the spec: see `COT_U_TI`. -/
def COT_U_IOA : Nat := 46

/-! ## Information elements (sol-mgrd/src/ptnet/ptnet.rs, `enum IE` and
`TryFrom<(u8, &[u8])> for IE`) -/

/-- `FW_Version_A`: firmware version triple (packed bytes). -/
structure FW_Version_A where
  major : Nat
  minor : Nat
  patch : Nat
deriving DecidableEq, Repr

/-- `HW_Version_A`: hardware version triple (packed bytes). -/
structure HW_Version_A where
  vid : Nat
  pid : Nat
  rev : Nat
deriving DecidableEq, Repr

/-- `M_DEV_ST` (= TI232 payload): device status, 7 packed bytes. -/
structure M_DEV_ST where
  fw_state : Nat
  fw_version : FW_Version_A
  hw_version : HW_Version_A
deriving DecidableEq, Repr

/-- `M_DEV_DC` (= TI233 payload): 7-byte opaque device descriptor. -/
structure M_DEV_DC where
  b : List Nat
deriving DecidableEq, Repr

/-- The parsed information element.  The Rust enum has one typed constructor
per recognized TI; the claims only inspect TI34, TI161, TI232 and TI233, so
the other recognized TIs keep their raw bytes in the `Other` constructor
(each of those C structs is exactly its packed bytes). -/
inductive IE where
  | Unknown (bytes : List Nat)
  | TI34 (value : Nat)
  | TI161 (value : Nat) (qds : Nat)
  | TI232 (st : M_DEV_ST)
  | TI233 (dc : M_DEV_DC)
  | Other (tc : Nat) (bytes : List Nat)
deriving DecidableEq, Repr

inductive IEParseError where
  | BufferTooShort
deriving DecidableEq, Repr

/-- The recognized TI values of the `TryFrom` impl other than 34, 161, 232
and 233. -/
def otherKnownTCs : List Nat :=
  [32, 33, 68, 129, 130, 131, 132, 192, 48, 49, 50, 84, 147, 16, 25, 56, 90, 219, 240]

/-- Width in bytes of the bound C struct for a recognized TI.  Equal to the
`size` bitfield of the TI byte (`raw / 32`), as pinned by the repository
tests (TI25 width 0, TI34 width 1, TI131 width 4, TI161 width 5, TI232 and
TI233 width 7). -/
def tiStructSize (tc : Nat) : Nat := tc / 32

/-- Little-endian 32-bit read at offset `i`. -/
def le32at (bs : List Nat) (i : Nat) : Nat :=
  bs.getD i 0 + 256 * bs.getD (i + 1) 0 + 65536 * bs.getD (i + 2) 0
    + 16777216 * bs.getD (i + 3) 0

/-- Embeds `IE::try_from((tc, buffer))`: recognized TIs are parsed from the
buffer (error when the buffer is shorter than the struct), every other TI
yields `Unknown` with the raw bytes. -/
def IE.tryFrom (tc : Nat) (buf : List Nat) : Except IEParseError IE :=
  if tc = 34 then
    if buf.length < 1 then .error .BufferTooShort else .ok (.TI34 (buf.getD 0 0))
  else if tc = 161 then
    if buf.length < 5 then .error .BufferTooShort
    else .ok (.TI161 (le32at buf 0) (buf.getD 4 0))
  else if tc = 232 then
    if buf.length < 7 then .error .BufferTooShort
    else .ok (.TI232 ⟨buf.getD 0 0,
      ⟨buf.getD 1 0, buf.getD 2 0, buf.getD 3 0⟩,
      ⟨buf.getD 4 0, buf.getD 5 0, buf.getD 6 0⟩⟩)
  else if tc = 233 then
    if buf.length < 7 then .error .BufferTooShort else .ok (.TI233 ⟨buf.take 7⟩)
  else if tc ∈ otherKnownTCs then
    if buf.length < tiStructSize tc then .error .BufferTooShort
    else .ok (.Other tc (buf.take (tiStructSize tc)))
  else .ok (.Unknown buf)

/-- Packed little-endian byte image of an information element, as the
builder's `add_ie` writes it (`any_as_u8_slice` of the C struct). -/
def IE.ser : IE → List Nat
  | .Unknown bs => bs
  | .TI34 v => [v % 256]
  | .TI161 v q => [v % 256, v / 256 % 256, v / 65536 % 256, v / 16777216 % 256, q % 256]
  | .TI232 st => [st.fw_state % 256, st.fw_version.major % 256, st.fw_version.minor % 256,
      st.fw_version.patch % 256, st.hw_version.vid % 256, st.hw_version.pid % 256,
      st.hw_version.rev % 256]
  | .TI233 dc => dc.b
  | .Other _ bs => bs

/-- An information element fits a TI byte when its byte image has the TI's
width and parses back to itself.  This is what holds for any C struct value
of the TI's bound type. -/
def IE.fits (tc : Nat) (ie : IE) : Bool :=
  decide ((IE.ser ie).length = tiStructSize tc) &&
  match IE.tryFrom tc (IE.ser ie) with
  | .ok ie2 => decide (ie2 = ie)
  | .error _ => false

/-! ## Scanner (src/sol-mgrd/src/ptnet/scanner.rs) -/

inductive ScanState where
  | ScanASDH
  | ScanDUI
  | ScanIOA
  | ScanIE
deriving DecidableEq, Repr

inductive Token where
  | ASDH (a : ASDH)
  | DUI (d : DUI)
  | IOA (ioa : Nat)
  | IE (ie : IE)
deriving DecidableEq, Repr

inductive ScanError where
  | EOF
  | ShortRead
  | InvalidPacket (msg : String)
deriving DecidableEq, Repr

/-- The scanner state: `Scanner` struct of scanner.rs.  `ioa` is a `u8`
counter, `pos` the read position in the immutable `packet`. -/
structure Scanner where
  state : ScanState
  packet : List Nat
  ioa : Nat
  iesRemaining : Nat
  pos : Nat
  asdh : ASDH
  dui : DUI
deriving DecidableEq, Repr

/-- `Scanner::new(packet)`. -/
def Scanner.new (packet : List Nat) : Scanner :=
  ⟨.ScanASDH, packet, 0, 0, 0, ⟨0, 0⟩, ⟨⟨0⟩, ⟨0⟩⟩⟩

/-- `Scanner::next_token`.  `suf` is the unread remainder
`packet[pos..]`; the Rust code indexes `packet[pos .. pos+k]` after checking
`rem`, which reads exactly the first `k` bytes of `suf`.  Mutation order of
the Rust code is preserved (in particular the error returns that happen
after fields were already updated). -/
def nextToken (s : Scanner) : Except ScanError Token × Scanner :=
  let suf := s.packet.drop s.pos
  let rem := suf.length
  match s.state with
  | .ScanASDH =>
    if rem < 2 then (.error .ShortRead, s)
    else
      let asdh : ASDH := ⟨suf.getD 0 0, suf.getD 1 0⟩
      (.ok (.ASDH asdh), { s with asdh := asdh, pos := s.pos + 2, state := .ScanDUI })
  | .ScanDUI =>
    if rem = 0 then (.error .EOF, s)
    else if rem < 2 then (.error .ShortRead, s)
    else
      let dui : DUI := ⟨⟨suf.getD 0 0⟩, ⟨suf.getD 1 0⟩⟩
      if dui.vsq.n = 0 then
        (.error (.InvalidPacket "VSQ.N zero"), { s with dui := dui, iesRemaining := dui.vsq.n })
      else
        (.ok (.DUI dui),
         { s with dui := dui, iesRemaining := dui.vsq.n, pos := s.pos + 2, state := .ScanIOA })
  | .ScanIOA =>
    if rem < 1 then (.error .ShortRead, s)
    else
      let ioa := suf.getD 0 0
      if s.asdh.cot = COT_U_TI ∨ s.asdh.cot = COT_U_COT ∨ s.asdh.cot = COT_U_IOA then
        (.ok (.IOA ioa),
         { s with ioa := ioa, pos := s.pos + 1, iesRemaining := s.iesRemaining - 1,
                  state := .ScanDUI })
      else
        (.ok (.IOA ioa), { s with ioa := ioa, pos := s.pos + 1, state := .ScanIE })
  | .ScanIE =>
    if rem < s.dui.ti.size then (.error .ShortRead, s)
    else
      let ieBuf := suf.take s.dui.ti.size
      let s1 := { s with pos := s.pos + s.dui.ti.size, iesRemaining := s.iesRemaining - 1 }
      let s2 :=
        if s1.iesRemaining > 0 then
          if s.dui.vsq.sq then { s1 with state := .ScanIE, ioa := (s1.ioa + 1) % 256 }
          else { s1 with state := .ScanIOA }
        else { s1 with state := .ScanDUI }
      match IE.tryFrom s.dui.ti.value ieBuf with
      | .ok ie => (.ok (.IE ie), s2)
      | .error _ => (.error (.InvalidPacket "IE invalid"), s2)

/-- Pull tokens until the first error, as both `ScannerIntoIterator` and
the callers of `next_token` do.  `fuel` bounds the number of pulls; a
`none` error component means the fuel ran out before an error. -/
def runTokens : Nat → Scanner → List Token × Option ScanError
  | 0, _ => ([], none)
  | fuel + 1, s =>
    match nextToken s with
    | (.error e, _) => ([], some e)
    | (.ok t, s') =>
      let r := runTokens fuel s'
      (t :: r.1, r.2)

/-- An assembled information object, `IOB` of scanner.rs. -/
structure IOB where
  asdh : ASDH
  dui : DUI
  ioa : Nat
  ie : IE
deriving DecidableEq, Repr

/-- The token-folding loop of `ScannerIntoIOBIterator::next`, applied to the
whole token stream: ASDH/DUI/IOA tokens update the current context, every IE
token emits an IOB (auto-incrementing the IOA mod 256 in SQ mode, clearing
it otherwise); an IE without a full context stops with the corresponding
`InvalidPacket` message. -/
def iobsOfTokens : Option ASDH → Option DUI → Option Nat → List Token → List IOB × Option String
  | _, _, _, [] => ([], none)
  | asdh?, dui?, ioa?, tok :: toks =>
    match tok with
    | .ASDH a => iobsOfTokens (some a) dui? ioa? toks
    | .DUI d => iobsOfTokens asdh? (some d) ioa? toks
    | .IOA i => iobsOfTokens asdh? dui? (some i) toks
    | .IE ie =>
      match asdh?, dui?, ioa? with
      | some a, some d, some i =>
        let nextIoa : Option Nat := if d.vsq.sq then some ((i + 1) % 256) else none
        let r := iobsOfTokens (some a) (some d) nextIoa toks
        (⟨a, d, i, ie⟩ :: r.1, r.2)
      | some _, some _, none => ([], some "Missing IOA")
      | some _, none, _ => ([], some "Missing DUI")
      | none, _, _ => ([], some "Missing ASDH")

/-- Combining the token run with the IOB fold: an invalid context inside
the fold surfaces as `InvalidPacket`; the scanner's terminating `EOF` is
swallowed (the iterator just stops) and any other scanner error
surfaces. -/
def iobResult (r : List Token × Option ScanError) : List IOB × Option ScanError :=
  let q := iobsOfTokens none none none r.1
  match q.2 with
  | some msg => (q.1, some (.InvalidPacket msg))
  | none =>
    match r.2 with
    | some .EOF => (q.1, none)
    | e => (q.1, e)

/-- `Scanner::into_iob_iter` collected to a list: the IOB iterator stops
silently at `EOF` and surfaces any other scanner error. -/
def runIOBs (fuel : Nat) (packet : List Nat) : List IOB × Option ScanError :=
  iobResult (runTokens fuel (Scanner.new packet))

/-! ## Builder (src/src/ptnet/packet.rs, `PtNetPacket`) -/

/-- Byte image of an ASDH as `to_buffer` writes it. -/
def serASDH (a : ASDH) : List Nat := [a.ca % 256, a.cotPn % 256]

/-- Byte image of a DUI. -/
def serDUI (d : DUI) : List Nat := [d.ti.raw % 256, d.vsq.raw % 256]

/-- One builder group: `begin_asdu(dui)`, `add_ioa(ioa)`, then `add_ie` for
each element (spec section 4.1: "any number of (DUI, IOA [, IE]...)
groups"). -/
structure Group where
  dui : DUI
  ioa : Nat
  ies : List IE
deriving DecidableEq, Repr

def serGroup (g : Group) : List Nat :=
  serDUI g.dui ++ [g.ioa % 256] ++ (g.ies.map IE.ser).flatten

/-- `PtNetPacket::with_asdh` followed by the group calls: the builder is a
thin sequential serializer. -/
def buildPacket (a : ASDH) (gs : List Group) : List Nat :=
  serASDH a ++ (gs.map serGroup).flatten

/-- The token sequence a group denotes. -/
def groupTokens (g : Group) : List Token :=
  .DUI g.dui :: .IOA g.ioa :: g.ies.map Token.IE

/-- The token sequence a built packet denotes (one ASDH, then the groups). -/
def packetTokens (a : ASDH) (gs : List Group) : List Token :=
  .ASDH a :: (gs.map groupTokens).flatten

/-- Well-formedness of a builder group: byte-range fields, the VSQ count
equal to the number of supplied elements (hence 1..15), and every element
fitting the group's TI. -/
def Group.wf (g : Group) : Bool :=
  decide (g.dui.ti.raw < 256) && decide (g.dui.vsq.raw < 256) && decide (g.ioa < 256) &&
  decide (g.dui.vsq.n = g.ies.length) && decide (1 ≤ g.ies.length) &&
  g.ies.all (IE.fits g.dui.ti.raw)

/-! ## Node store (src/ptnet-mgrd/src/database/mod.rs and node_table.rs)

The redb database is embedded as an association list from addresses to
records; a write transaction is the list threaded through the table calls,
committed by returning it, aborted by returning the original list.  Events
are returned in emission order; they are produced only on the committed
path, matching the post-commit `events.send` calls of the source. -/

/-- `NodeAddress`: the raw 6-byte identifier. -/
abbrev NodeAddress := List Nat

/-- `NodeRecord` of node_table.rs. -/
structure NodeRecord where
  address : NodeAddress
  device_status : Option M_DEV_ST
  device_descriptor : Option M_DEV_DC
deriving DecidableEq, Repr

/-- `NodeRecord::default()`: derived `Default` gives the all-zero address
and empty options. -/
def NodeRecord.dflt : NodeRecord :=
  ⟨[0, 0, 0, 0, 0, 0], none, none⟩

/-- Store events (`enum Event` of node_table.rs).  There are only two
variants; the table has no removal event. -/
inductive Event where
  | NodeAdded (rec : NodeRecord)
  | NodeModified (rec : NodeRecord)
deriving DecidableEq, Repr

/-- The record a store event carries. -/
def Event.payload : Event → NodeRecord
  | .NodeAdded r => r
  | .NodeModified r => r

inductive UpdateMode where
  | UpdateOrCreate
  | MustCreate
  | MustExist
deriving DecidableEq, Repr

/-- Store precondition errors (`io::ErrorKind` values raised by the
table operations). -/
inductive StoreError where
  | AlreadyExists
  | NotFound
deriving DecidableEq, Repr

/-- The `nodes` table content. -/
abbrev Store := List (NodeAddress × NodeRecord)

/-- `table.get(address)`. -/
def Store.get : Store → NodeAddress → Option NodeRecord
  | [], _ => none
  | (k, v) :: t, a => if k = a then some v else Store.get t a

/-- `table.insert(address, rec)`: writes the record under the key and
returns the previous value at that key. -/
def Store.insert : Store → NodeAddress → NodeRecord → Store × Option NodeRecord
  | [], a, r => ([(a, r)], none)
  | (k, v) :: t, a, r =>
    if k = a then ((k, r) :: t, some v)
    else
      let q := Store.insert t a r
      ((k, v) :: q.1, q.2)

/-- `table.remove(address)`. -/
def Store.remove (s : Store) (a : NodeAddress) : Store :=
  s.filter (fun p => p.1 ≠ a)

/-- `NodeTable::list()`: the key set of the table. -/
def Store.keys (s : Store) : List NodeAddress := s.map Prod.fst

/-- `NodeTable::modify(address, cb)`: read-modify-write in one transaction.
When the callback returns nothing the function returns early — the write
transaction is dropped without commit, nothing was inserted and no event is
sent.  Otherwise the record is inserted under `address`, the transaction
commits, and exactly one event (added or modified, depending on the
previous value) with the written record is sent. -/
def NodeTable.modify (s : Store) (address : NodeAddress)
    (cb : Option NodeRecord → Option NodeRecord) : Store × List Event :=
  match cb (s.get address) with
  | none => (s, [])
  | some rec =>
    let q := s.insert address rec
    match q.2 with
    | none => (q.1, [.NodeAdded rec])
    | some _ => (q.1, [.NodeModified rec])

/-- `NodeTable::update(address, rec, mode)`: the mode check runs inside the
transaction; on violation the function returns the error before the commit,
so the table is unchanged (first component `s`) and no event is sent.  On
the committed path exactly one event with the written record is sent. -/
def NodeTable.update (s : Store) (address : NodeAddress) (rec : NodeRecord)
    (mode : UpdateMode) : Store × List Event × Option StoreError :=
  let bad : Option StoreError :=
    match mode with
    | .MustCreate => if (s.get address).isSome then some .AlreadyExists else none
    | .MustExist => if (s.get address).isNone then some .NotFound else none
    | .UpdateOrCreate => none
  match bad with
  | some e => (s, [], some e)
  | none =>
    let q := s.insert address rec
    match q.2 with
    | none => (q.1, [.NodeAdded rec], none)
    | some _ => (q.1, [.NodeModified rec], none)

/-- The loop body of `NodeTable::update_many`, threading the write
transaction's table `t` and the pushed event stack `evts`. -/
def NodeTable.updateManyGo (t : Store) (evts : List Event) (mode : UpdateMode) :
    List NodeRecord → Except StoreError (Store × List Event)
  | [] => .ok (t, evts)
  | rec :: rest =>
    let bad : Option StoreError :=
      match mode with
      | .MustCreate => if (t.get rec.address).isSome then some .AlreadyExists else none
      | .MustExist => if (t.get rec.address).isNone then some .NotFound else none
      | .UpdateOrCreate => none
    match bad with
    | some e => .error e
    | none =>
      let q := t.insert rec.address rec
      match q.2 with
      | none => NodeTable.updateManyGo q.1 (.NodeAdded rec :: evts) mode rest
      | some _ => NodeTable.updateManyGo q.1 (.NodeModified rec :: evts) mode rest

/-- `NodeTable::update_many(it, mode)`: one transaction for the whole batch.
An error inside the loop returns before the commit: the table is unchanged
and no event is sent.  After the commit the pushed events are popped and
sent, so the emission order is the reverse of the iteration order (the
event stack is accumulated in reverse already, so it is returned as is). -/
def NodeTable.update_many (s : Store) (recs : List NodeRecord) (mode : UpdateMode) :
    Store × List Event × Option StoreError :=
  match NodeTable.updateManyGo s [] mode recs with
  | .error e => (s, [], some e)
  | .ok (t, evts) => (t, evts, none)

/-- `NodeTable::remove_many(iter)`: deletes under one transaction.  No event
of any kind is sent (the `Event` type has no removal variant). -/
def NodeTable.remove_many (s : Store) (addrs : List NodeAddress) : Store :=
  addrs.foldl Store.remove s

/-! ## Connection frames and persistor
(src/ptnet-mgrd/src/client_connection.rs, ptnet_process/persist.rs) -/

/-- Link header: control byte `C` and 6-byte address. -/
structure Header where
  C : Nat
  address : NodeAddress
deriving DecidableEq, Repr

/-- `Message` exchanged with the ptlink server (payload as bytes). -/
structure Message where
  port : Int
  header : Header
  payload : List Nat
deriving DecidableEq, Repr

/-- `MessageHeader`: a `Message` without its payload. -/
structure MessageHeader where
  port : Int
  header : Header
deriving DecidableEq, Repr

/-- `IOBMessage`: a parsed IOB together with the server message header it
arrived in. -/
structure IOBMessage where
  message : MessageHeader
  iob : IOB
deriving DecidableEq, Repr

/-- One iteration of `PersistProcess::run` for a received `IOBMessage`:
server messages with common address `0x3E` update the node keyed by the
message's source address — IOA 1 with a TI232 element sets
`device_status`, IOA 2 with a TI233 element sets `device_descriptor`; the
missing record is created with `unwrap_or_default()`. -/
def PersistProcess.step (s : Store) (m : IOBMessage) : Store × List Event :=
  if m.iob.asdh.ca = 0x3E then
    match m.iob.ioa with
    | 1 =>
      match m.iob.ie with
      | .TI232 ti232 =>
        NodeTable.modify s m.message.header.address (fun optRec =>
          let rec0 := optRec.getD NodeRecord.dflt
          some { rec0 with device_status := some ti232 })
      | _ => (s, [])
    | 2 =>
      match m.iob.ie with
      | .TI233 ti233 =>
        NodeTable.modify s m.message.header.address (fun optRec =>
          let rec0 := optRec.getD NodeRecord.dflt
          some { rec0 with device_descriptor := some ti233 })
      | _ => (s, [])
    | _ => (s, [])
  else (s, [])

/-! ## External-model reconciler (src/ptnet-mgrd/src/main.rs, the
`NodeModelSource::SOL` arm) -/

/-- The reconcile block of `main`: insert with `MustCreate` every model node
whose address is not in the store's key list, then remove every store key
not present in the model.  The removal runs only when `update_many`
succeeded (`?` propagates its error); `remove_many` produces no events. -/
def reconcile (s : Store) (model_nodes : List NodeRecord) :
    Store × List Event × Option StoreError :=
  let nodes := s.keys
  let new_nodes := model_nodes.filter (fun node => ¬ nodes.contains node.address)
  match NodeTable.update_many s new_nodes .MustCreate with
  | (s1, evts, none) =>
    let removed := nodes.filter (fun org => ¬ model_nodes.any (fun node => node.address = org))
    (NodeTable.remove_many s1 removed, evts, none)
  | (s1, evts, some e) => (s1, evts, some e)

/-! ## Connection multiplexer shared state
(src/ptnet-mgrd/src/client_connection.rs) -/

/-- Models one registered `oneshot::Sender<u16>`: `wid` identifies the
waiter, `alive` records whether the paired receiver still exists (a
`oneshot` send succeeds exactly when it does). -/
structure Waiter where
  wid : Nat
  alive : Bool
deriving DecidableEq, Repr

/-- The state behind `ClientConnection.lock`. -/
structure SharedState where
  id_gen : Nat
  request_map : List (Nat × Waiter)
deriving DecidableEq, Repr

/-- `HashMap::insert`: replace the binding for the key or add it. -/
def mapInsert : List (Nat × Waiter) → Nat → Waiter → List (Nat × Waiter)
  | [], k, w => [(k, w)]
  | (k0, w0) :: t, k, w =>
    if k0 = k then (k0, w) :: t else (k0, w0) :: mapInsert t k w

/-- `HashMap::remove`: the removed binding (if any) and the remaining map. -/
def mapRemove : List (Nat × Waiter) → Nat → Option Waiter × List (Nat × Waiter)
  | [], _ => (none, [])
  | (k0, w0) :: t, k =>
    if k0 = k then (some w0, t)
    else
      let q := mapRemove t k
      (q.1, (k0, w0) :: q.2)

/-- The raw `ptnet::Message` frame header written to the wire
(`id: u16, iPort: i32, header, payloadLength: u8`). -/
structure RawMessage where
  id : Nat
  iPort : Int
  header : Header
  payloadLength : Nat
deriving DecidableEq, Repr

/-- The raw `ptnet::MessageResult` frame (`msgId: u16, result: u16`). -/
structure MessageResult where
  msgId : Nat
  result : Nat
deriving DecidableEq, Repr

/-- `ClientConnectionSender::send_message` under the shared-state lock: the
frame is written with `id = id_gen`, `id_gen` is incremented (a `u16`, so
mod 2^16), and the waiter is registered in the pending map under the
written id before the lock is released. -/
def send_message (ss : SharedState) (msg : Message) (w : Waiter) :
    SharedState × RawMessage :=
  let raw : RawMessage := ⟨ss.id_gen, msg.port, msg.header, msg.payload.length % 256⟩
  (⟨(ss.id_gen + 1) % 65536, mapInsert ss.request_map raw.id w⟩, raw)

/-- Outcome of `dispatch_result` for one inbound `MessageResult` frame. -/
inductive DispatchOutcome where
  | delivered (w : Waiter) (result : Nat)
  | warned
  | panicked
deriving DecidableEq, Repr

/-- `ClientConnectionDispatcher::dispatch_result`: remove the pending waiter
for `msgId`; if present, `sender.send(result).unwrap()` — delivery when the
receiver is alive, a panic of the unwrap otherwise; if absent, log a
warning and drop the frame. -/
def dispatch_result (ss : SharedState) (res : MessageResult) :
    SharedState × DispatchOutcome :=
  let q := mapRemove ss.request_map res.msgId
  match q.1 with
  | some w =>
    ({ ss with request_map := q.2 },
     if w.alive then .delivered w res.result else .panicked)
  | none => ({ ss with request_map := q.2 }, .warned)

/-! ## NodeScan response wait
(src/ptnet-mgrd/src/ptnet_process/nodescan.rs) -/

/-- `NodeScanProcess::match_rsp_ti232`: the response matches when the server
message's address equals the node's address, the IOB's ASDH equals
`ASDH::with(0x3E, COT::REQ, false)`, its IOA is 1 and its element is a
TI232. -/
def match_rsp_ti232 (rsp : IOBMessage) (node : NodeRecord) : Bool :=
  if rsp.message.header.address = node.address then
    if rsp.iob.asdh = ASDH.with 0x3E COT_REQ false ∧ rsp.iob.ioa = 1 then
      match rsp.iob.ie with
      | .TI232 _ => true
      | _ => false
    else false
  else false

/-- Observable outcome of the response wait in `NodeScanProcess::scan`. -/
inductive ScanWaitOutcome where
  | timedOut
  | matchingResponseArrived (rsp : IOBMessage)
deriving DecidableEq, Repr

/-- The labelled `rsp_loop` of `NodeScanProcess::scan`, over the list of
IOB messages that arrive before the 5-second timeout fires (an empty list
means the timeout wins the `select`).  In the source the matching branch
executes `break 'rsp_loop` and the non-matching fall-through executes a
bare `break`, which exits the same (innermost) labelled loop — so both
branches leave the loop, fall to the `info!("Matching response arrived")`
log and return success. -/
def rspLoop (node : NodeRecord) : List IOBMessage → ScanWaitOutcome
  | [] => .timedOut
  | m :: _rest =>
    if match_rsp_ti232 m node then
      .matchingResponseArrived m
    else
      .matchingResponseArrived m

/-! ## Firmware image container (src/sol-lib/src/image_header.rs) -/

/-- CRC-32/CKSUM shift of one bit position: 32-bit register, MSB first,
polynomial 0x04C11DB7. -/
def crcShift (c : Nat) : Nat :=
  if c.testBit 31 then ((c * 2) ^^^ 0x04C11DB7) % 4294967296
  else (c * 2) % 4294967296

/-- Feed one byte into the CRC register. -/
def crcByte (c b : Nat) : Nat :=
  Nat.repeat crcShift 8 ((c ^^^ (b % 256) * 16777216) % 4294967296)

/-- `crc(buf)` of image_header.rs: the CRC-32/CKSUM digest (init 0, no
reflection, final xor 0xFFFFFFFF). -/
def crc (buf : List Nat) : Nat :=
  (buf.foldl crcByte 0) ^^^ 0xFFFFFFFF

def MAGIC1 : Nat := 0xFEEDBEEF
def MAGIC2 : Nat := 0xDEADBEEF

/-- `Container`: `magic1 | header(116 bytes) | header_crc | magic2`; the
header is kept as its raw bytes (the Rust `Header` union). -/
structure Container where
  magic1 : Nat
  header : List Nat
  header_crc : Nat
  magic2 : Nat
deriving DecidableEq, Repr

/-- Header v0 field `payload_size`: little-endian u32 at header offset 7
(after `version`, 3 hw bytes and 3 fw bytes). -/
def Container.payload_size (c : Container) : Nat := le32at c.header 7

/-- Header v0 field `payload_crc`: little-endian u32 at header offset 11. -/
def Container.payload_crc (c : Container) : Nat := le32at c.header 11

inductive VerifyError where
  | HeaderMagicNotPresent
  | HeaderCRCInvalid
  | PayloadSizeInvalid
  | PayloadCRCInvalid
deriving DecidableEq, Repr

/-- `Container::verify(payload)`: the checks in source order — magics,
header CRC, then (only when a payload is presented) payload size
(`pay.len() as u32`, hence mod 2^32) and payload CRC. -/
def Container.verify (c : Container) (payload : Option (List Nat)) :
    Except VerifyError Unit :=
  if c.magic1 ≠ MAGIC1 ∨ c.magic2 ≠ MAGIC2 then .error .HeaderMagicNotPresent
  else if crc c.header ≠ c.header_crc then .error .HeaderCRCInvalid
  else
    match payload with
    | some pay =>
      if c.payload_size ≠ pay.length % 4294967296 then .error .PayloadSizeInvalid
      else if crc pay ≠ c.payload_crc then .error .PayloadCRCInvalid
      else .ok ()
    | none => .ok ()

/-! ## Concrete fixtures and counts used by the theorems -/

/-- Token budget of a group list: one DUI and one IOA token plus one IE
token per element, per group. -/
def groupsTokenCount (gs : List Group) : Nat :=
  (gs.map (fun g => 2 + g.ies.length)).sum

/-- The scanned node of the C2 scenario. -/
def nodeC2 : NodeRecord := ⟨[0, 0, 0, 0, 0, 1], none, none⟩

/-- An IOB message from a different source address: `match_rsp_ti232`
rejects it. -/
def nonMatchingC2 : IOBMessage :=
  ⟨⟨-1, ⟨0x40, [0, 0, 0, 0, 0, 2]⟩⟩,
   ⟨ASDH.with 0x3E COT_REQ false, DUI.with_direct 232 1 false, 1,
    .TI232 ⟨0, ⟨0, 0, 0⟩, ⟨0, 0, 0⟩⟩⟩⟩

/-- A response that `match_rsp_ti232` accepts for `nodeC2`. -/
def matchingC2 : IOBMessage :=
  ⟨⟨-1, ⟨0x40, [0, 0, 0, 0, 0, 1]⟩⟩,
   ⟨ASDH.with 0x3E COT_REQ false, DUI.with_direct 232 1 false, 1,
    .TI232 ⟨0, ⟨0, 0, 0⟩, ⟨0, 0, 0⟩⟩⟩⟩

/-- The C3 scenario store with key set `[A, B]`. -/
def storeAB : Store :=
  [([0, 0, 0, 0, 0, 1], ⟨[0, 0, 0, 0, 0, 1], none, none⟩),
   ([0, 0, 0, 0, 0, 2], ⟨[0, 0, 0, 0, 0, 2], none, none⟩)]

/-- The C3 external model with node set `[B, C]`. -/
def modelBC : List NodeRecord :=
  [⟨[0, 0, 0, 0, 0, 2], none, none⟩, ⟨[0, 0, 0, 0, 0, 3], none, none⟩]

/-! # Theorems -/

/-! ## Store lemmas -/

/-- The previous value returned by a table insert is the value the key held
before the insert. -/
theorem Store.insert_snd (s : Store) (a : NodeAddress) (r : NodeRecord) :
    (Store.insert s a r).2 = s.get a := by
  induction s with
  | nil => rfl
  | cons p t ih =>
    cases p with
    | mk k v =>
      by_cases hk : k = a <;> simp [Store.insert, Store.get, hk, ih]

/-- Payloads of the events accumulated by the `update_many` loop: on the
committed path, one event per written record (newest first) on top of the
incoming stack. -/
theorem updateManyGo_payloads (recs : List NodeRecord) :
    ∀ (t : Store) (evts : List Event) (mode : UpdateMode) (t' : Store) (evts' : List Event),
      NodeTable.updateManyGo t evts mode recs = .ok (t', evts') →
      evts'.map Event.payload = recs.reverse.map (fun r => r) ++ evts.map Event.payload := by
  induction recs with
  | nil =>
    intro t evts mode t' evts' h
    simp [NodeTable.updateManyGo] at h
    simp [h.2]
  | cons rec rest ih =>
    intro t evts mode t' evts' h
    simp only [NodeTable.updateManyGo] at h
    rcases hbad : (match mode with
      | UpdateMode.MustCreate =>
        if (t.get rec.address).isSome then some StoreError.AlreadyExists else none
      | UpdateMode.MustExist =>
        if (t.get rec.address).isNone then some StoreError.NotFound else none
      | UpdateMode.UpdateOrCreate => none) with _ | e
    · rw [hbad] at h
      simp only at h
      rcases hq : (t.insert rec.address rec).2 with _ | prev
      · rw [hq] at h
        have := ih _ _ _ _ _ h
        simpa using this
      · rw [hq] at h
        have := ih _ _ _ _ _ h
        simpa using this
    · rw [hbad] at h
      simp at h

/-! ## C7 -/

/-- Claim C7: store event atomicity.  `modify` with a callback returning
nothing aborts the transaction: the table is unchanged and no event is
published.  A committed `modify` publishes exactly one event — added or
modified according to the previous value under the key — whose payload is
the written record.  `update` and `update_many` publish no event and leave
the table unchanged when they return an error, and on success publish
exactly one event per written record with the committed record as
payload. -/
theorem store_event_atomicity :
    (∀ (s : Store) (a : NodeAddress) (cb : Option NodeRecord → Option NodeRecord),
        cb (s.get a) = none → NodeTable.modify s a cb = (s, []))
  ∧ (∀ (s : Store) (a : NodeAddress) (cb : Option NodeRecord → Option NodeRecord)
        (r : NodeRecord),
        cb (s.get a) = some r →
          NodeTable.modify s a cb =
            ((s.insert a r).1,
             [match s.get a with
              | none => Event.NodeAdded r
              | some _ => Event.NodeModified r]))
  ∧ (∀ (s : Store) (a : NodeAddress) (r : NodeRecord) (mode : UpdateMode) (e : StoreError),
        (NodeTable.update s a r mode).2.2 = some e →
          (NodeTable.update s a r mode).1 = s ∧ (NodeTable.update s a r mode).2.1 = [])
  ∧ (∀ (s : Store) (a : NodeAddress) (r : NodeRecord) (mode : UpdateMode),
        (NodeTable.update s a r mode).2.2 = none →
          (NodeTable.update s a r mode).2.1.map Event.payload = [r])
  ∧ (∀ (s : Store) (recs : List NodeRecord) (mode : UpdateMode) (e : StoreError),
        (NodeTable.update_many s recs mode).2.2 = some e →
          (NodeTable.update_many s recs mode).1 = s ∧
          (NodeTable.update_many s recs mode).2.1 = [])
  ∧ (∀ (s : Store) (recs : List NodeRecord) (mode : UpdateMode),
        (NodeTable.update_many s recs mode).2.2 = none →
          (NodeTable.update_many s recs mode).2.1.map Event.payload = recs.reverse) := by
  refine ⟨?m1, ?m2, ?u1, ?u2, ?b1, ?b2⟩
  · intro s a cb h
    simp [NodeTable.modify, h]
  · intro s a cb r h
    simp only [NodeTable.modify, h]
    rw [Store.insert_snd]
    cases s.get a <;> simp
  · intro s a r mode e h
    unfold NodeTable.update at *
    rcases mode
    · rcases hq : (s.insert a r).2 with _ | v <;> simp_all
    · by_cases hg : (s.get a).isSome
      · simp_all
      · simp only [hg, if_false] at h ⊢
        rcases hq : (s.insert a r).2 with _ | v <;> simp_all
    · by_cases hg : s.get a = none
      · simp_all
      · simp only [hg, if_false] at h ⊢
        rcases hq : (s.insert a r).2 with _ | v <;> simp_all
  · intro s a r mode h
    unfold NodeTable.update at *
    rcases mode
    · rcases hq : (s.insert a r).2 with _ | v <;> simp_all [Event.payload]
    · by_cases hg : (s.get a).isSome
      · simp_all
      · simp only [hg, if_false] at h ⊢
        rcases hq : (s.insert a r).2 with _ | v <;> simp_all [Event.payload]
    · by_cases hg : s.get a = none
      · simp_all
      · simp only [hg, if_false] at h ⊢
        rcases hq : (s.insert a r).2 with _ | v <;> simp_all [Event.payload]
  · intro s recs mode e h
    unfold NodeTable.update_many at *
    rcases hgo : NodeTable.updateManyGo s [] mode recs with e' | p
    · simp_all
    · obtain ⟨t, evts⟩ := p
      simp_all
  · intro s recs mode h
    unfold NodeTable.update_many at *
    rcases hgo : NodeTable.updateManyGo s [] mode recs with e' | p
    · simp_all
    · obtain ⟨t, evts⟩ := p
      have := updateManyGo_payloads recs s [] mode t evts hgo
      simp_all

/-- Witness for C7 at concrete inputs. -/
theorem store_event_atomicity_witness :
    NodeTable.modify [] [0, 0, 0, 0, 0, 6] (fun _ => none) = ([], []) ∧
    (NodeTable.update_many [] [NodeRecord.dflt] .MustCreate).2.1.map Event.payload
      = [NodeRecord.dflt].reverse := by
  refine ⟨store_event_atomicity.1 _ _ _ rfl, store_event_atomicity.2.2.2.2.2 _ _ _ ?_⟩
  decide

/-! ## C1 -/

/-- Claim C1 (code bug): the persistor's create-missing path violates the
store key invariant.  A TI232 status at IOA 1 under common address `0x3E`
from source address `01:02:03:04:05:06`, arriving on an empty store, makes
`PersistProcess::run` call `modify` with that address as key; the callback
builds the record with `unwrap_or_default()` — whose derived default
address is all zeroes — and never sets the address field, so the record
committed under key `[1,2,3,4,5,6]` carries address `[0,0,0,0,0,0]`. -/
theorem persist_stores_default_address_under_source_key :
    ((PersistProcess.step []
        ⟨⟨-1, ⟨0x40, [1, 2, 3, 4, 5, 6]⟩⟩,
         ⟨ASDH.with 0x3E COT_REQ false, DUI.with_direct 232 1 false, 1,
          .TI232 ⟨2, ⟨1, 2, 3⟩, ⟨4, 5, 6⟩⟩⟩⟩).1.get [1, 2, 3, 4, 5, 6]).map
      NodeRecord.address = some [0, 0, 0, 0, 0, 0]
  ∧ ([0, 0, 0, 0, 0, 0] : NodeAddress) ≠ [1, 2, 3, 4, 5, 6] := by decide

/-! ## C2 -/

/-- Claim C2 (code bug): the response wait of `NodeScanProcess::scan` ends
on the first received IOB message even when it does not match.  The
non-matching branch of the `select` arm falls through to a bare `break`,
which exits the labelled `rsp_loop` just like the matching branch's
`break 'rsp_loop`; the function then logs "Matching response arrived" and
returns success.  A matching response queued behind the non-matching one is
never examined. -/
theorem nodescan_wait_ends_on_nonmatching_message :
    match_rsp_ti232 nonMatchingC2 nodeC2 = false
  ∧ rspLoop nodeC2 [nonMatchingC2] = .matchingResponseArrived nonMatchingC2
  ∧ rspLoop nodeC2 [nonMatchingC2, matchingC2] = .matchingResponseArrived nonMatchingC2
  ∧ match_rsp_ti232 matchingC2 nodeC2 = true
  ∧ rspLoop nodeC2 [] = .timedOut := by decide

/-! ## C3 -/

/-- Counterexample to claim C3 as stated: reconciling `[A,B]` against
`[B,C]` publishes exactly one event in total — the claimed delete event for
A does not exist (`remove_many` sends nothing and the `Event` type has no
removal variant), so the claimed "one delete event and one add event"
(two events, one of them for A) is false. -/
theorem reconcile_publishes_no_delete_event :
    (reconcile storeAB modelBC).2.1.length = 1
  ∧ ((reconcile storeAB modelBC).2.1.map Event.payload).all
      (fun r => r.address ≠ [0, 0, 0, 0, 0, 1]) = true := by decide

/-- Claim C3 as amended: reconciling a store with key set `[A,B]` against
the external list `[B,C]` inserts `M \ K` with `MustCreate` and deletes
`K \ M`, leaving the key set exactly `[B,C]`; it publishes exactly one
event, a `NodeAdded` for C — no event is published for the deletion of A
because `remove_many` publishes none and no delete event kind exists. -/
theorem reconcile_scenario_amended :
    (reconcile storeAB modelBC).1.keys = [[0, 0, 0, 0, 0, 2], [0, 0, 0, 0, 0, 3]]
  ∧ (reconcile storeAB modelBC).2.1 = [.NodeAdded ⟨[0, 0, 0, 0, 0, 3], none, none⟩]
  ∧ (reconcile storeAB modelBC).2.2 = none := by decide

/-! ## C8 -/

/-- Claim C8: `Container::verify` returns `Ok` exactly when both magics are
present, the CRC-32/CKSUM of the header bytes equals `header_crc`, and —
when a payload is supplied — `payload_size` equals the payload length (as
`u32`) and the payload CRC matches; otherwise it returns the error of the
first failing check in the order `HeaderMagicNotPresent`,
`HeaderCRCInvalid`, `PayloadSizeInvalid`, `PayloadCRCInvalid`. -/
theorem container_verify_spec (c : Container) (payload : Option (List Nat)) :
    (c.verify payload = .ok () ↔
      (c.magic1 = MAGIC1 ∧ c.magic2 = MAGIC2 ∧ crc c.header = c.header_crc ∧
       ∀ pay, payload = some pay →
         c.payload_size = pay.length % 4294967296 ∧ crc pay = c.payload_crc))
  ∧ (c.verify payload = .error .HeaderMagicNotPresent ↔
      ¬(c.magic1 = MAGIC1 ∧ c.magic2 = MAGIC2))
  ∧ (c.verify payload = .error .HeaderCRCInvalid ↔
      ((c.magic1 = MAGIC1 ∧ c.magic2 = MAGIC2) ∧ crc c.header ≠ c.header_crc))
  ∧ (c.verify payload = .error .PayloadSizeInvalid ↔
      ((c.magic1 = MAGIC1 ∧ c.magic2 = MAGIC2) ∧ crc c.header = c.header_crc ∧
       ∃ pay, payload = some pay ∧ c.payload_size ≠ pay.length % 4294967296))
  ∧ (c.verify payload = .error .PayloadCRCInvalid ↔
      ((c.magic1 = MAGIC1 ∧ c.magic2 = MAGIC2) ∧ crc c.header = c.header_crc ∧
       ∃ pay, payload = some pay ∧ c.payload_size = pay.length % 4294967296 ∧
         crc pay ≠ c.payload_crc)) := by
  unfold Container.verify
  by_cases h1 : c.magic1 ≠ MAGIC1 ∨ c.magic2 ≠ MAGIC2
  · rcases payload with _ | pay <;> simp_all <;> tauto
  · push_neg at h1
    by_cases h2 : crc c.header ≠ c.header_crc
    · rcases payload with _ | pay <;> simp_all
    · push_neg at h2
      rcases payload with _ | pay
      · simp_all
      · by_cases h3 : c.payload_size ≠ pay.length % 4294967296
        · simp_all
        · push_neg at h3
          by_cases h4 : crc pay ≠ c.payload_crc <;> simp_all

/-- Witness for C8: a container with both magics and a matching header CRC
(the CRC-32/CKSUM of an empty byte string is `0xFFFFFFFF`) verifies Ok
without a payload. -/
theorem container_verify_spec_witness :
    Container.verify ⟨MAGIC1, [], 0xFFFFFFFF, MAGIC2⟩ none = .ok () := by
  exact (container_verify_spec ⟨MAGIC1, [], 0xFFFFFFFF, MAGIC2⟩ none).1.mpr
    ⟨rfl, rfl, by decide, by intro pay h; cases h⟩

/-! ## C9 -/

/-- Claim C9: request-id correlation.  `send_message` writes a frame whose
id is the current `id_gen`, increments `id_gen` mod 2^16 (monotonic,
wrapping id space) and registers the waiter under the written id.  In the
concrete S3 run: sending while `id_gen = 7` writes id 7 and leaves
`id_gen = 8` with the waiter pending under 7; `MessageResult(msg_id=7,
result=0)` is delivered as result 0 to exactly that waiter and the entry is
removed, so a second arrival for id 7 finds no waiter, warns and is
dropped. -/
theorem request_id_correlation :
    (∀ (ss : SharedState) (msg : Message) (w : Waiter),
        send_message ss msg w =
          (⟨(ss.id_gen + 1) % 65536, mapInsert ss.request_map ss.id_gen w⟩,
           ⟨ss.id_gen, msg.port, msg.header, msg.payload.length % 256⟩))
  ∧ (∀ (msg : Message) (w : Waiter),
        (send_message ⟨7, []⟩ msg w).2.id = 7 ∧
        (send_message ⟨7, []⟩ msg w).1.id_gen = 8 ∧
        (send_message ⟨7, []⟩ msg w).1.request_map = [(7, w)])
  ∧ (∀ (w : Waiter), w.alive = true →
        dispatch_result ⟨8, [(7, w)]⟩ ⟨7, 0⟩ = (⟨8, []⟩, .delivered w 0))
  ∧ dispatch_result ⟨8, []⟩ ⟨7, 0⟩ = (⟨8, []⟩, .warned) := by
  refine ⟨fun ss msg w => rfl, fun msg w => ⟨rfl, rfl, rfl⟩, ?_, rfl⟩
  intro w hw
  simp [dispatch_result, mapRemove, hw]

/-- Witness for C9 with a concrete live waiter. -/
theorem request_id_correlation_witness :
    dispatch_result ⟨8, [(7, ⟨0, true⟩)]⟩ ⟨7, 0⟩ = (⟨8, []⟩, .delivered ⟨0, true⟩ 0) :=
  request_id_correlation.2.2.1 ⟨0, true⟩ rfl

/-! ## C10 -/

/-- Claim C10: when a `MessageResult` arrives for a registered waiter, the
dispatcher performs `sender.send(result).unwrap()`: the waiter is removed
from the pending map and the result is delivered only when the waiter's
receiving end is still alive; when the receiver was already dropped the
unwrap panics instead of logging or returning an error. -/
theorem dispatch_unwrap_panics_on_dead_receiver :
    ∀ (ss : SharedState) (msgId r : Nat) (w : Waiter) (rest : List (Nat × Waiter)),
      mapRemove ss.request_map msgId = (some w, rest) →
        dispatch_result ss ⟨msgId, r⟩ =
          (⟨ss.id_gen, rest⟩, if w.alive then .delivered w r else .panicked) := by
  intro ss msgId r w rest h
  simp [dispatch_result, h]

/-- Witness for C10: a pending waiter whose receiver is gone makes the
dispatch panic. -/
theorem dispatch_unwrap_panics_on_dead_receiver_witness :
    dispatch_result ⟨8, [(7, ⟨0, false⟩)]⟩ ⟨7, 5⟩ = (⟨8, []⟩, .panicked) := by
  have h := dispatch_unwrap_panics_on_dead_receiver ⟨8, [(7, ⟨0, false⟩)]⟩ 7 5
    ⟨0, false⟩ [] (by decide)
  simpa using h

/-! ## C4 -/

/-- Claim C4: scanner boundary behaviour.  `next_token` returns `EOF`
exactly in the `ScanDUI` state (after a completed DUI group, or right after
the ASDH of an empty packet) with zero bytes remaining; end-of-buffer mid
group — fewer than 2 remaining bytes inside an ASDH or a DUI, none before
an IOA, fewer than the element width inside an IE — yields exactly
`ShortRead`; and a DUI whose VSQ.N field is zero yields `InvalidPacket`. -/
theorem scanner_boundary_classification (s : Scanner) :
    ((nextToken s).1 = .error .EOF ↔
       s.state = .ScanDUI ∧ (s.packet.drop s.pos).length = 0)
  ∧ ((nextToken s).1 = .error .ShortRead ↔
       ((s.state = .ScanASDH ∧ (s.packet.drop s.pos).length < 2)
      ∨ (s.state = .ScanDUI ∧ (s.packet.drop s.pos).length = 1)
      ∨ (s.state = .ScanIOA ∧ (s.packet.drop s.pos).length < 1)
      ∨ (s.state = .ScanIE ∧ (s.packet.drop s.pos).length < s.dui.ti.size)))
  ∧ (s.state = .ScanDUI → 2 ≤ (s.packet.drop s.pos).length →
       (s.packet.drop s.pos).getD 1 0 % 16 = 0 →
       (nextToken s).1 = .error (.InvalidPacket "VSQ.N zero")) := by
  obtain ⟨st, pkt, ioa0, ies0, pos0, asdh0, dui0⟩ := s
  cases st
  · refine ⟨?_, ?_, ?_⟩ <;> simp only [nextToken] <;> split_ifs with h <;> simp_all
  · refine ⟨?_, ?_, ?_⟩ <;> simp only [nextToken, VSQ.n] <;>
      split_ifs with h0 h1 h2 <;> simp_all <;> omega
  · refine ⟨?_, ?_, ?_⟩ <;> simp only [nextToken] <;>
      split_ifs with h0 h1 <;> simp_all
  · refine ⟨?_, ?_, ?_⟩ <;> simp only [nextToken] <;> split_ifs with h0 <;>
      rcases hp : IE.tryFrom dui0.ti.value ((pkt.drop pos0).take dui0.ti.size)
        with e | ie <;>
      simp_all

/-- Witness for C4: a scanner in the `ScanDUI` state over remaining bytes
`[34, 0]` (a DUI whose VSQ.N is zero) yields `InvalidPacket`, and with no
remaining bytes yields `EOF`. -/
theorem scanner_boundary_classification_witness :
    (nextToken ⟨.ScanDUI, [34, 0], 0, 0, 0, ⟨0, 0⟩, ⟨⟨0⟩, ⟨0⟩⟩⟩).1
        = .error (.InvalidPacket "VSQ.N zero")
  ∧ (nextToken ⟨.ScanDUI, [], 0, 0, 0, ⟨0, 0⟩, ⟨⟨0⟩, ⟨0⟩⟩⟩).1 = .error .EOF := by
  constructor
  · exact (scanner_boundary_classification _).2.2 rfl (by decide) (by decide)
  · exact ((scanner_boundary_classification _).1).mpr ⟨rfl, by decide⟩

/-! ## Scanner run lemmas for C5 and C6 -/

/-- Advancing the read position: the remainder after `pos + n` is the
remainder after `pos` with its first `n` bytes dropped. -/
theorem drop_pos_add (pkt : List Nat) (pos n : Nat) (l : List Nat)
    (h : pkt.drop pos = l) : pkt.drop (pos + n) = l.drop n := by
  rw [← List.drop_drop, h]

/-- Unfolding `IE.fits`. -/
theorem IE.fits_spec (tc : Nat) (ie : IE) (h : IE.fits tc ie = true) :
    (IE.ser ie).length = tiStructSize tc ∧ IE.tryFrom tc (IE.ser ie) = .ok ie := by
  unfold IE.fits at h
  rcases hq : IE.tryFrom tc (IE.ser ie) with e | ie2 <;> rw [hq] at h <;> simp at h
  obtain ⟨h1, h2⟩ := h
  refine ⟨h1, ?_⟩
  rw [h2]

/-- The element width of the scanner's current TI, in `IE.fits` terms. -/
theorem fits_ser_length (t : TI) (ie : IE) (h : (IE.ser ie).length = tiStructSize t.raw) :
    (IE.ser ie).length = t.size := h

/-- One successful pull prefixes the remaining run. -/
theorem runTokens_step (fuel : Nat) (s s' : Scanner) (t : Token)
    (h : nextToken s = (.ok t, s')) :
    runTokens (fuel + 1) s = (t :: (runTokens fuel s').1, (runTokens fuel s').2) := by
  simp [runTokens, h]

/-- `next_token` in the `ScanASDH` state with at least two remaining bytes. -/
theorem nextToken_scanASDH (s : Scanner) (h : s.state = .ScanASDH)
    (b0 b1 : Nat) (rest : List Nat) (hsuf : s.packet.drop s.pos = b0 :: b1 :: rest) :
    nextToken s = (.ok (.ASDH ⟨b0, b1⟩),
      { s with asdh := ⟨b0, b1⟩, pos := s.pos + 2, state := .ScanDUI }) := by
  obtain ⟨st, pkt, ioa0, ies0, pos0, asdh0, dui0⟩ := s
  simp only at h hsuf
  subst h
  simp [nextToken, hsuf]

/-- `next_token` in the `ScanDUI` state with at least two remaining bytes
and a non-zero VSQ.N. -/
theorem nextToken_scanDUI (s : Scanner) (h : s.state = .ScanDUI)
    (tb vb : Nat) (rest : List Nat) (hsuf : s.packet.drop s.pos = tb :: vb :: rest)
    (hn : vb % 16 ≠ 0) :
    nextToken s = (.ok (.DUI ⟨⟨tb⟩, ⟨vb⟩⟩),
      { s with dui := ⟨⟨tb⟩, ⟨vb⟩⟩, iesRemaining := vb % 16, pos := s.pos + 2,
               state := .ScanIOA }) := by
  obtain ⟨st, pkt, ioa0, ies0, pos0, asdh0, dui0⟩ := s
  simp only at h hsuf
  subst h
  simp [nextToken, hsuf, VSQ.n, hn]

/-- `next_token` in the `ScanIOA` state with a remaining byte and a cause of
transmission that carries information elements. -/
theorem nextToken_scanIOA (s : Scanner) (h : s.state = .ScanIOA)
    (b : Nat) (rest : List Nat) (hsuf : s.packet.drop s.pos = b :: rest)
    (hcot : ¬(s.asdh.cot = COT_U_TI ∨ s.asdh.cot = COT_U_COT ∨ s.asdh.cot = COT_U_IOA)) :
    nextToken s = (.ok (.IOA b),
      { s with ioa := b, pos := s.pos + 1, state := .ScanIE }) := by
  obtain ⟨st, pkt, ioa0, ies0, pos0, asdh0, dui0⟩ := s
  simp only at h hsuf hcot
  subst h
  simp [nextToken, hsuf, hcot]

/-- `next_token` in the `ScanIE` state when a full element is available and
parses. -/
theorem nextToken_scanIE (s : Scanner) (h : s.state = .ScanIE)
    (chunk rest : List Nat) (ie : IE)
    (hsuf : s.packet.drop s.pos = chunk ++ rest)
    (hlen : chunk.length = s.dui.ti.size)
    (hp : IE.tryFrom s.dui.ti.value chunk = .ok ie) :
    nextToken s = (.ok (.IE ie),
      if s.iesRemaining - 1 > 0 then
        if s.dui.vsq.sq then
          { s with pos := s.pos + s.dui.ti.size, iesRemaining := s.iesRemaining - 1,
                   state := .ScanIE, ioa := (s.ioa + 1) % 256 }
        else
          { s with pos := s.pos + s.dui.ti.size, iesRemaining := s.iesRemaining - 1,
                   state := .ScanIOA }
      else
        { s with pos := s.pos + s.dui.ti.size, iesRemaining := s.iesRemaining - 1,
                 state := .ScanDUI }) := by
  obtain ⟨st, pkt, ioa0, ies0, pos0, asdh0, dui0⟩ := s
  simp only at h hsuf hlen hp
  subst h
  have htake : (chunk ++ rest).take dui0.ti.size = chunk := List.take_left' hlen
  have hge : ¬((chunk ++ rest).length < dui0.ti.size) := by
    simp [List.length_append]
    omega
  simp only [nextToken, hsuf, htake, hp, List.length_append]
  rw [if_neg (by omega)]

/-- Consuming the information elements of one group from the `ScanIE`
state: `ies_remaining` elements follow back to back (SQ mode), or exactly
one element follows (any mode); the scanner emits one IE token per element
and returns to `ScanDUI` at the group boundary.  Only the final state's
`ScanDUI` state, ASDH and remaining bytes are exposed; the IOA register is
internal. -/
theorem runTokens_ieChunks :
    ∀ (ies : List IE) (s : Scanner) (rest : List Nat) (fuel : Nat),
      s.state = .ScanIE →
      s.iesRemaining = ies.length →
      1 ≤ ies.length →
      (s.dui.vsq.sq = true ∨ ies.length = 1) →
      (∀ ie ∈ ies, IE.fits s.dui.ti.raw ie = true) →
      s.packet.drop s.pos = (ies.map IE.ser).flatten ++ rest →
      ∃ s', runTokens (ies.length + fuel) s
          = (ies.map Token.IE ++ (runTokens fuel s').1, (runTokens fuel s').2)
        ∧ s'.state = .ScanDUI ∧ s'.asdh = s.asdh ∧ s'.packet.drop s'.pos = rest := by
  intro ies
  induction ies with
  | nil =>
    intro s rest fuel _ _ hlen
    simp at hlen
  | cons ie tl ih =>
    intro s rest fuel hst hies hlen hsq hfits hdrop
    have hfit := IE.fits_spec _ _ (hfits ie (by simp))
    have hserlen : (IE.ser ie).length = s.dui.ti.size := fits_ser_length _ _ hfit.1
    have hchunk : s.packet.drop s.pos = IE.ser ie ++ ((tl.map IE.ser).flatten ++ rest) := by
      simpa using hdrop
    have hstep := nextToken_scanIE s hst (IE.ser ie) ((tl.map IE.ser).flatten ++ rest) ie
      hchunk hserlen hfit.2
    have hafter : s.packet.drop (s.pos + s.dui.ti.size) = (tl.map IE.ser).flatten ++ rest := by
      have h1 := drop_pos_add s.packet s.pos s.dui.ti.size _ hchunk
      rw [List.drop_left' hserlen] at h1
      exact h1
    rcases tl with _ | ⟨ie2, tl2⟩
    · -- last element of the group: back to ScanDUI
      have h1 : s.iesRemaining = 1 := by simpa using hies
      rw [if_neg (by omega)] at hstep
      refine ⟨{ s with pos := s.pos + s.dui.ti.size, iesRemaining := s.iesRemaining - 1,
                       state := .ScanDUI }, ?_, rfl, rfl, by simpa using hafter⟩
      have hrun := runTokens_step fuel s _ _ hstep
      have hfl : ([ie] : List IE).length + fuel = fuel + 1 := by
        simp
        omega
      rw [hfl, hrun]
      simp
    · -- more elements follow: SQ mode keeps scanning elements
      have hsq' : s.dui.vsq.sq = true := by
        rcases hsq with h | h
        · exact h
        · simp at h
      have hge2 : s.iesRemaining = tl2.length + 2 := by simpa using hies
      rw [if_pos (by omega), if_pos hsq'] at hstep
      set s2 : Scanner :=
        { s with pos := s.pos + s.dui.ti.size, iesRemaining := s.iesRemaining - 1,
                 state := .ScanIE, ioa := (s.ioa + 1) % 256 } with hs2
      have hdrop2 : s2.packet.drop s2.pos = ((ie2 :: tl2).map IE.ser).flatten ++ rest := by
        simpa [hs2] using hafter
      obtain ⟨s', hrun, hst', hasdh', hdrop'⟩ :=
        ih s2 rest fuel rfl (by simp [hs2]; omega) (by simp)
          (by left; simpa [hs2] using hsq')
          (by intro x hx; simpa [hs2] using hfits x (by simp [hx]))
          hdrop2
      refine ⟨s', ?_, hst', by simpa [hs2] using hasdh', hdrop'⟩
      have hcount : (ie :: ie2 :: tl2).length + fuel = ((ie2 :: tl2).length + fuel) + 1 := by
        simp
        omega
      rw [hcount, runTokens_step ((ie2 :: tl2).length + fuel) s s2 (.IE ie) hstep, hrun]
      simp

/-- Scanning one serialized builder group from the `ScanDUI` state: the
scanner emits the group's DUI, its IOA and one IE token per element, and
stands again at `ScanDUI` on the remaining bytes with the same ASDH. -/
theorem runTokens_group (g : Group) (s : Scanner) (rest : List Nat) (fuel : Nat)
    (hst : s.state = .ScanDUI)
    (hdrop : s.packet.drop s.pos = serGroup g ++ rest)
    (hcot : ¬(s.asdh.cot = COT_U_TI ∨ s.asdh.cot = COT_U_COT ∨ s.asdh.cot = COT_U_IOA))
    (hwf : g.wf = true)
    (hsq : g.dui.vsq.sq = true ∨ g.ies.length = 1) :
    ∃ s', runTokens (2 + g.ies.length + fuel) s
        = (groupTokens g ++ (runTokens fuel s').1, (runTokens fuel s').2)
      ∧ s'.state = .ScanDUI ∧ s'.asdh = s.asdh ∧ s'.packet.drop s'.pos = rest := by
  simp only [Group.wf, Bool.and_eq_true, decide_eq_true_eq, List.all_eq_true] at hwf
  obtain ⟨⟨⟨⟨⟨hti, hvsq⟩, hioa⟩, hn⟩, hlen⟩, hfits⟩ := hwf
  have hshape : s.packet.drop s.pos
      = g.dui.ti.raw :: g.dui.vsq.raw :: g.ioa :: ((g.ies.map IE.ser).flatten ++ rest) := by
    rw [hdrop]
    simp [serGroup, serDUI, Nat.mod_eq_of_lt hti, Nat.mod_eq_of_lt hvsq, Nat.mod_eq_of_lt hioa]
  have hn16 : g.dui.vsq.raw % 16 ≠ 0 := by
    have : g.dui.vsq.raw % 16 = g.ies.length := hn
    omega
  have hstep1 := nextToken_scanDUI s hst g.dui.ti.raw g.dui.vsq.raw
    (g.ioa :: ((g.ies.map IE.ser).flatten ++ rest)) hshape hn16
  set s1 : Scanner :=
    { s with dui := ⟨⟨g.dui.ti.raw⟩, ⟨g.dui.vsq.raw⟩⟩, iesRemaining := g.dui.vsq.raw % 16,
             pos := s.pos + 2, state := .ScanIOA } with hs1
  have hdrop1 : s1.packet.drop s1.pos = g.ioa :: ((g.ies.map IE.ser).flatten ++ rest) := by
    simpa [hs1] using drop_pos_add s.packet s.pos 2 _ hshape
  have hstep2 := nextToken_scanIOA s1 rfl g.ioa ((g.ies.map IE.ser).flatten ++ rest)
    hdrop1 (by simpa [hs1] using hcot)
  set s2 : Scanner := { s1 with ioa := g.ioa, pos := s1.pos + 1, state := .ScanIE } with hs2
  have hdrop2 : s2.packet.drop s2.pos = (g.ies.map IE.ser).flatten ++ rest := by
    have := drop_pos_add s.packet (s.pos + 2) 1 _ hdrop1
    simpa [hs1, hs2] using this
  have hduieta : (⟨⟨g.dui.ti.raw⟩, ⟨g.dui.vsq.raw⟩⟩ : DUI) = g.dui := rfl
  obtain ⟨s', hrun, hst', hasdh', hdrop'⟩ :=
    runTokens_ieChunks g.ies s2 rest fuel rfl (by simp [hs2, hs1, VSQ.n]; exact hn) hlen
      (by simpa [hs2, hs1, hduieta] using hsq)
      (by intro ie hie; simpa [hs2, hs1, hduieta] using hfits ie hie)
      hdrop2
  refine ⟨s', ?_, hst', by simpa [hs2, hs1] using hasdh', hdrop'⟩
  have hcount : 2 + g.ies.length + fuel = ((g.ies.length + fuel) + 1) + 1 := by omega
  rw [hcount, runTokens_step _ s s1 _ hstep1, runTokens_step _ s1 s2 _ hstep2, hrun]
  simp [groupTokens, hduieta]

/-- Scanning any number of serialized groups from the `ScanDUI` state down
to the terminating `EOF`. -/
theorem runTokens_groups :
    ∀ (gs : List Group) (s : Scanner),
      s.state = .ScanDUI →
      s.packet.drop s.pos = (gs.map serGroup).flatten →
      ¬(s.asdh.cot = COT_U_TI ∨ s.asdh.cot = COT_U_COT ∨ s.asdh.cot = COT_U_IOA) →
      (∀ g ∈ gs, g.wf = true ∧ (g.dui.vsq.sq = true ∨ g.ies.length = 1)) →
      runTokens (groupsTokenCount gs + 1) s = ((gs.map groupTokens).flatten, some .EOF) := by
  intro gs
  induction gs with
  | nil =>
    intro s hst hdrop hcot _
    obtain ⟨st, pkt, ioa0, ies0, pos0, asdh0, dui0⟩ := s
    simp only at hst hdrop
    subst hst
    simp at hdrop
    simp [groupsTokenCount, runTokens, nextToken, hdrop]
  | cons g gs' ih =>
    intro s hst hdrop hcot hgs
    obtain ⟨s', hrun, hst', hasdh', hdrop'⟩ :=
      runTokens_group g s ((gs'.map serGroup).flatten) (groupsTokenCount gs' + 1) hst
        (by simpa using hdrop) hcot (hgs g (by simp)).1 (hgs g (by simp)).2
    have hcount : groupsTokenCount (g :: gs') + 1
        = 2 + g.ies.length + (groupsTokenCount gs' + 1) := by
      simp [groupsTokenCount]
      omega
    rw [hcount, hrun,
      ih s' hst' hdrop' (by rw [hasdh']; exact hcot) (fun g' hg' => hgs g' (by simp [hg']))]
    simp

/-- Scanning a packet produced by the builder: the whole token stream and
the final `EOF`, for well-formed groups that are in SQ mode or carry a
single element, under an ASDH whose cause carries elements. -/
theorem runTokens_buildPacket (a : ASDH) (gs : List Group)
    (hca : a.ca < 256) (hcp : a.cotPn < 256)
    (hcot : ¬(a.cot = COT_U_TI ∨ a.cot = COT_U_COT ∨ a.cot = COT_U_IOA))
    (hgs : ∀ g ∈ gs, g.wf = true ∧ (g.dui.vsq.sq = true ∨ g.ies.length = 1)) :
    runTokens (groupsTokenCount gs + 2) (Scanner.new (buildPacket a gs))
      = (packetTokens a gs, some .EOF) := by
  set sc : Scanner := Scanner.new (buildPacket a gs) with hsc
  have hpkt : sc.packet.drop 0 = a.ca :: a.cotPn :: (gs.map serGroup).flatten := by
    simp [hsc, Scanner.new, buildPacket, serASDH, Nat.mod_eq_of_lt hca, Nat.mod_eq_of_lt hcp]
  have hstep := nextToken_scanASDH sc rfl a.ca a.cotPn ((gs.map serGroup).flatten)
    (by simpa [hsc] using hpkt)
  have haeta : (⟨a.ca, a.cotPn⟩ : ASDH) = a := rfl
  set s1 : Scanner := { sc with asdh := ⟨a.ca, a.cotPn⟩, pos := sc.pos + 2, state := .ScanDUI }
    with hs1
  have hdrop1 : s1.packet.drop s1.pos = (gs.map serGroup).flatten := by
    have := drop_pos_add sc.packet 0 2 _ hpkt
    simpa [hs1, hsc, Scanner.new] using this
  have hmain := runTokens_groups gs s1 rfl hdrop1 (by simpa [hs1, haeta] using hcot) hgs
  have hcount : groupsTokenCount gs + 2 = (groupsTokenCount gs + 1) + 1 := by omega
  rw [hcount, runTokens_step _ _ s1 _ hstep, hmain]
  simp [packetTokens, haeta]

/-- Folding IE tokens into IOBs in SQ mode: each element lands one IOA
higher (mod 256) than the previous one. -/
theorem iobs_sq_ies (a : ASDH) (d : DUI) (hsq : d.vsq.sq = true) :
    ∀ (ies : List IE) (i : Nat), i < 256 →
      iobsOfTokens (some a) (some d) (some i) (ies.map Token.IE)
        = (ies.mapIdx (fun k ie => ⟨a, d, (i + k) % 256, ie⟩), none) := by
  intro ies
  induction ies with
  | nil => intro i _; simp [iobsOfTokens]
  | cons ie tl ih =>
    intro i hi
    have hfun : (fun k (x : IE) => (⟨a, d, ((i + 1) % 256 + k) % 256, x⟩ : IOB))
        = (fun k (x : IE) => (⟨a, d, (i + (k + 1)) % 256, x⟩ : IOB)) := by
      funext k x
      have : ((i + 1) % 256 + k) % 256 = (i + 1 + k) % 256 := Nat.mod_add_mod _ _ _
      rw [this, show i + 1 + k = i + (k + 1) by omega]
    simp only [List.map_cons, iobsOfTokens, hsq, if_pos,
      ih ((i + 1) % 256) (Nat.mod_lt _ (by omega)), List.mapIdx_cons, hfun]
    simp [Nat.mod_eq_of_lt hi]

/-! ## C5 -/

/-- Counterexample to claim C5 as stated: an SQ group of two elements with
first IOA 255 (bytes `00 03 22 12 FF 10 20`).  The IOA register is a `u8`,
so the second IOB lands at IOA `(255 + 1) % 256 = 0`, not at the claimed
`a + 1 = 256`. -/
theorem sq_ioa_wraps_at_256 :
    ((runIOBs 20 [0x00, 0x03, 0x22, 0x12, 0xFF, 0x10, 0x20]).1.map IOB.ioa = [255, 0])
  ∧ ([255, 0] : List Nat) ≠ [255, 256] := by decide

/-- Claim C5 as amended: for every well-formed DUI group with SQ = 1, first
IOA `a` and N information elements, the IOB iterator yields N IOBs whose
IOAs are `(a + i) % 256` for `i = 0 .. N-1`, in order (the increment is
`u8` arithmetic, so it wraps at 256; below 256 this is `a, a+1, ...,
a+N-1` as claimed). -/
theorem sq_mode_addressing_amended (a : ASDH) (g : Group)
    (hca : a.ca < 256) (hcp : a.cotPn < 256)
    (hcot : ¬(a.cot = COT_U_TI ∨ a.cot = COT_U_COT ∨ a.cot = COT_U_IOA))
    (hwf : g.wf = true) (hsq : g.dui.vsq.sq = true) :
    runIOBs (groupsTokenCount [g] + 2) (buildPacket a [g])
      = (g.ies.mapIdx (fun k ie => ⟨a, g.dui, (g.ioa + k) % 256, ie⟩), none) := by
  have htok := runTokens_buildPacket a [g] hca hcp hcot
    (by intro g' hg'; simp at hg'; subst hg'; exact ⟨hwf, Or.inl hsq⟩)
  have hioa : g.ioa < 256 := by
    simp only [Group.wf, Bool.and_eq_true, decide_eq_true_eq, List.all_eq_true] at hwf
    exact hwf.1.1.1.2
  have hptk : packetTokens a [g]
      = .ASDH a :: .DUI g.dui :: .IOA g.ioa :: g.ies.map Token.IE := by
    simp [packetTokens, groupTokens]
  have hfold := iobs_sq_ies a g.dui hsq g.ies g.ioa hioa
  have hq : iobsOfTokens none none none (packetTokens a [g])
      = (g.ies.mapIdx (fun k ie => ⟨a, g.dui, (g.ioa + k) % 256, ie⟩), none) := by
    rw [hptk]
    simp only [iobsOfTokens]
    exact hfold
  unfold runIOBs
  rw [htok]
  unfold iobResult
  rw [hq]

/-- Witness for C5: the S2 scenario.  The 10-byte input
`00 03 22 15 32 10 20 30 40 50` yields five IOBs at IOAs 50..54 carrying
TI34 values `0x10 .. 0x50` (the built packet for this group is exactly
those bytes). -/
theorem sq_mode_addressing_amended_witness :
    runIOBs
        (groupsTokenCount
          [(⟨⟨⟨34⟩, ⟨0x15⟩⟩, 50,
            [.TI34 0x10, .TI34 0x20, .TI34 0x30, .TI34 0x40, .TI34 0x50]⟩ : Group)] + 2)
        (buildPacket ⟨0, 3⟩
          [⟨⟨⟨34⟩, ⟨0x15⟩⟩, 50,
            [.TI34 0x10, .TI34 0x20, .TI34 0x30, .TI34 0x40, .TI34 0x50]⟩])
      = ([⟨⟨0, 3⟩, ⟨⟨34⟩, ⟨0x15⟩⟩, 50, .TI34 0x10⟩,
          ⟨⟨0, 3⟩, ⟨⟨34⟩, ⟨0x15⟩⟩, 51, .TI34 0x20⟩,
          ⟨⟨0, 3⟩, ⟨⟨34⟩, ⟨0x15⟩⟩, 52, .TI34 0x30⟩,
          ⟨⟨0, 3⟩, ⟨⟨34⟩, ⟨0x15⟩⟩, 53, .TI34 0x40⟩,
          ⟨⟨0, 3⟩, ⟨⟨34⟩, ⟨0x15⟩⟩, 54, .TI34 0x50⟩], none) := by
  have h := sq_mode_addressing_amended ⟨0, 3⟩
    ⟨⟨⟨34⟩, ⟨0x15⟩⟩, 50, [.TI34 0x10, .TI34 0x20, .TI34 0x30, .TI34 0x40, .TI34 0x50]⟩
    (by decide) (by decide) (by decide) (by decide) (by decide)
  exact h.trans (by decide)

/-! ## C6 -/

/-- Counterexample to claim C6 as stated: a well-formed group in non-SQ
mode with two elements.  The builder writes `DUI, IOA, IE, IE`
(bytes `00 03 22 02 32 10 20`) but the scanner expects an IOA before every
element when SQ = 0: it reads the second element's byte as an IOA token and
then fails with `ShortRead`, so the token stream is not the input groups
followed by `EOF`. -/
theorem builder_roundtrip_fails_nonsq_multi_ie :
    Group.wf ⟨DUI.with_direct 34 2 false, 50, [.TI34 0x10, .TI34 0x20]⟩ = true
  ∧ runTokens 10 (Scanner.new
        (buildPacket ⟨0, 3⟩ [⟨DUI.with_direct 34 2 false, 50, [.TI34 0x10, .TI34 0x20]⟩]))
      = ([.ASDH ⟨0, 3⟩, .DUI ⟨⟨34⟩, ⟨2⟩⟩, .IOA 50, .IE (.TI34 0x10), .IOA 0x20],
         some .ShortRead)
  ∧ runTokens 10 (Scanner.new
        (buildPacket ⟨0, 3⟩ [⟨DUI.with_direct 34 2 false, 50, [.TI34 0x10, .TI34 0x20]⟩]))
      ≠ (packetTokens ⟨0, 3⟩ [⟨DUI.with_direct 34 2 false, 50, [.TI34 0x10, .TI34 0x20]⟩],
         some .EOF) := by decide

/-- Claim C6 as amended: the codec round-trip holds for every synthesized
packet whose ASDH bytes are in range with a cause of transmission that
carries information elements, and whose groups are well formed (byte-range
fields, VSQ.N equal to the element count, elements fitting the group's TI)
and are each either in SQ mode or carry exactly one information element —
the builder writes one IOA per group, which the scanner only accepts in
those shapes.  The scanner then yields exactly one ASDH token followed by
each group's DUI, IOA and IE tokens (no SQ IOA increments appear at token
level), followed by `EOF`. -/
theorem builder_scanner_roundtrip_amended (a : ASDH) (gs : List Group)
    (hca : a.ca < 256) (hcp : a.cotPn < 256)
    (hcot : ¬(a.cot = COT_U_TI ∨ a.cot = COT_U_COT ∨ a.cot = COT_U_IOA))
    (hgs : ∀ g ∈ gs, g.wf = true ∧ (g.dui.vsq.sq = true ∨ g.ies.length = 1)) :
    runTokens (groupsTokenCount gs + 2) (Scanner.new (buildPacket a gs))
      = (packetTokens a gs, some .EOF) :=
  runTokens_buildPacket a gs hca hcp hcot hgs

/-- Witness for C6: a two-group packet — a single-element non-SQ group
(TI 161) followed by a five-element SQ group (TI 34) — scans back to
exactly its input tokens and `EOF`. -/
theorem builder_scanner_roundtrip_amended_witness :
    runTokens
        (groupsTokenCount
          [(⟨⟨⟨161⟩, ⟨1⟩⟩, 100, [.TI161 0xFEEDBEEF 0x80]⟩ : Group),
           ⟨⟨⟨34⟩, ⟨0x15⟩⟩, 50,
            [.TI34 0x10, .TI34 0x20, .TI34 0x30, .TI34 0x40, .TI34 0x50]⟩] + 2)
        (Scanner.new (buildPacket ⟨10, 5⟩
          [⟨⟨⟨161⟩, ⟨1⟩⟩, 100, [.TI161 0xFEEDBEEF 0x80]⟩,
           ⟨⟨⟨34⟩, ⟨0x15⟩⟩, 50,
            [.TI34 0x10, .TI34 0x20, .TI34 0x30, .TI34 0x40, .TI34 0x50]⟩]))
      = (packetTokens ⟨10, 5⟩
          [⟨⟨⟨161⟩, ⟨1⟩⟩, 100, [.TI161 0xFEEDBEEF 0x80]⟩,
           ⟨⟨⟨34⟩, ⟨0x15⟩⟩, 50,
            [.TI34 0x10, .TI34 0x20, .TI34 0x30, .TI34 0x40, .TI34 0x50]⟩],
         some .EOF) :=
  builder_scanner_roundtrip_amended ⟨10, 5⟩
    [⟨⟨⟨161⟩, ⟨1⟩⟩, 100, [.TI161 0xFEEDBEEF 0x80]⟩,
     ⟨⟨⟨34⟩, ⟨0x15⟩⟩, 50,
      [.TI34 0x10, .TI34 0x20, .TI34 0x30, .TI34 0x40, .TI34 0x50]⟩]
    (by decide) (by decide) (by decide) (by decide)

end PtnetMgr
